import Mathlib

/-!
Formal model of the asynchronous job-processing engine of this repository
(`app.py`: the `enqueue_asset` endpoint and the `process_pending` batch
dispatcher, together with the external worker loop in `worker.py`).

Modelling conventions:
* Provider JSON payloads are modelled by the inductive type `JVal`; the
  constructor `JVal.null` stands both for JSON `null` and for Python `None`
  (Python's `json` module decodes JSON `null` to `None`, so the code cannot
  tell them apart).
* The remote provider (the three HTTP calls made by `process_pending`) is an
  opaque environment `Provider`.  A call either yields the decoded response
  body (`CallResult.ok`) or raises (`CallResult.exn`), matching
  `requests.post`/`requests.get` raising on transport errors.  The
  `resp.json()` `ValueError` fallback `{"body": resp.text}` is absorbed into
  the provider's returned `JVal` (the code stores and inspects only the final
  decoded value).
* Machine time: the polling loop measures wall-clock time with
  `time.time()`; the model advances a logical clock by the sleep interval
  (4 seconds) per iteration, i.e. every remote call and store write is taken
  to cost negligible time relative to the poll interval.
* The database is the list of job rows; `db.commit()` is a pure record
  update.  `updated_at` bookkeeping is pure timestamp noise and is not part
  of the model.
-/

/-- A decoded JSON value, as handled by the Python code.  `null` also stands
for Python `None`. -/
inductive JVal where
  | null : JVal
  | str (s : String) : JVal
  | arr (xs : List JVal) : JVal
  | obj (fields : List (String × JVal)) : JVal

/-- Python truthiness of a decoded JSON value (`bool(v)`). -/
def JVal.truthy : JVal → Bool
  | .null => false
  | .str s => !(s == "")
  | .arr xs => !xs.isEmpty
  | .obj fs => !fs.isEmpty

/-- Python `v == lit` for a string literal `lit`. -/
def JVal.eqStr : JVal → String → Bool
  | .str s, t => s == t
  | _, _ => false

/-- `d.get(k)` on a decoded JSON object: the value bound to `k`, or `None`
when the key is absent. -/
def jLookup (fs : List (String × JVal)) (k : String) : JVal :=
  match fs.lookup k with
  | some v => v
  | none => .null

/-- The code's ad hoc unwrap step:
`x.get("data") if isinstance(x, dict) and "data" in x else x`. -/
def unwrapData : JVal → JVal
  | .obj fs =>
    match fs.lookup "data" with
    | some d => d
    | none => .obj fs
  | v => v

/-- Python `d[k] = v` on a dict: replace the binding if the key is present,
otherwise append it. -/
def setField (fs : List (String × JVal)) (k : String) (v : JVal) :
    List (String × JVal) :=
  if fs.any (fun kv => kv.1 == k) then
    fs.map (fun kv => if kv.1 == k then (k, v) else kv)
  else fs ++ [(k, v)]

mutual
/-- Python `repr` of a decoded JSON value (as far as the code can observe:
the values reaching `str()` come from `json` decoding). -/
def pyRepr : JVal → String
  | .null => "None"
  | .str s => "\x27" ++ s ++ "\x27"
  | .arr xs => "[" ++ String.intercalate ", " (pyReprList xs) ++ "]"
  | .obj fs => "\x7b" ++ String.intercalate ", " (pyReprFields fs) ++ "\x7d"

def pyReprList : List JVal → List String
  | [] => []
  | x :: xs => pyRepr x :: pyReprList xs

def pyReprFields : List (String × JVal) → List String
  | [] => []
  | kv :: fs => ("\x27" ++ kv.1 ++ "\x27: " ++ pyRepr kv.2) :: pyReprFields fs
end

/-- Python `str()` of a decoded JSON value: strings print bare, everything
else prints as its `repr`. -/
def pyStr : JVal → String
  | .str s => s
  | v => pyRepr v

/-- Python `int(s)` on a string: strip surrounding whitespace, optional
sign, then a nonempty run of decimal digits; anything else raises
`ValueError`. -/
def pyInt (s : String) : Option Int :=
  let cs := ((s.toList.dropWhile Char.isWhitespace).reverse.dropWhile
      Char.isWhitespace).reverse
  match cs with
  | [] => none
  | c :: rest =>
    let sd : Bool × List Char :=
      if c = '-' then (true, rest)
      else if c = '+' then (false, rest)
      else (false, cs)
    if sd.2.isEmpty then none
    else if sd.2.all Char.isDigit then
      let n : Nat := sd.2.foldl (fun a c => a * 10 + (c.toNat - 48)) 0
      some (if sd.1 then -(n : Int) else (n : Int))
    else none

/-- A row of the `jobs` table (`class Job` in `app.py`).  `url` and `title`
hold whatever the (decoded) request body supplied; `asset_id` and
`playback_id` hold whatever `.get("id")` extracted from provider responses
(`JVal.null` = SQL NULL = Python `None`). -/
structure Job where
  id : Nat
  url : JVal
  title : JVal
  status : String
  asset_id : JVal
  playback_id : JVal
  mux_raw : JVal
  error : Option String
  created_at : Nat

/-- One remote HTTP call issued by `process_pending`, for call-trace
accounting. -/
inductive RemoteCall where
  | createAssetCall (url : JVal) (title : JVal) : RemoteCall
  | createPlaybackCall (assetId : JVal) : RemoteCall
  | getStatusCall (assetId : JVal) : RemoteCall

/-- Outcome of a remote call (or of `int()` parsing): either a value, or a
raised Python exception carrying `str(exc)`. -/
inductive CallResult (α : Type) where
  | ok (v : α) : CallResult α
  | exn (msg : String) : CallResult α

/-- The remote provider, as the engine observes it.
`createAsset url title` models `POST /assets` for the payload built from the
job (it yields the final decoded `resp_json`, with the `ValueError` fallback
`{"body": resp.text}` absorbed); `createPlayback assetId` models
`POST /assets/{id}/playback-ids`; `getStatus assetId k` models the `k`-th
`GET /assets/{id}` status poll for the job (it yields `jdata`, which is
`None` = `JVal.null` when `r.ok` is false).  `CallResult.exn` models the
`requests` call (or its `.json()` decode inside the poll try-block)
raising. -/
structure Provider where
  createAsset : JVal → JVal → CallResult JVal
  createPlayback : JVal → CallResult JVal
  getStatus : JVal → Nat → CallResult JVal

/-- Lines 178-202 of `app.py`: if the job has a (truthy) `asset_id`, POST a
public playback-id creation; on a decoded object response with a truthy
`"id"`, store it as `playback_id` and record the response under
`mux_raw["playback_creation"]`; any exception in the block (including the
`TypeError` from indexing a truthy non-dict `mux_raw`) is caught and the
step proceeds to polling.  Returns the updated job and the calls issued. -/
def playbackStep (p : Provider) (j : Job) : Job × List RemoteCall :=
  if j.asset_id.truthy then
    match p.createPlayback j.asset_id with
    | .exn _ => (j, [.createPlaybackCall j.asset_id])
    | .ok pbJson =>
      match unwrapData pbJson with
      | .obj fs =>
        if (jLookup fs "id").truthy then
          let j1 := { j with playback_id := jLookup fs "id" }
          let mr := if j1.mux_raw.truthy then j1.mux_raw else JVal.obj []
          match mr with
          | .obj mfs =>
            ({ j1 with mux_raw := .obj (setField mfs "playback_creation" pbJson) },
             [.createPlaybackCall j.asset_id])
          | _ => ({ j1 with mux_raw := mr }, [.createPlaybackCall j.asset_id])
        else (j, [.createPlaybackCall j.asset_id])
      | _ => (j, [.createPlaybackCall j.asset_id])
  else (j, [])

/-- Lines 204-237 of `app.py`: the bounded polling loop.
`while time.time() - start < timeout` with `timeout = 300`, sleeping
`interval = 4` seconds per iteration; `elapsed` is the logical clock
(`time.time() - start`), `k` numbers the polls, `ready` is the loop's
`ready` flag.  Each iteration GETs the asset; on a decoded object whose
`"status"` is `"ready"` it sets `ready`, optionally takes the first entry of
`"playback_ids"` when `playback_id` is still unset, and breaks (an
`AttributeError` from `pids[0].get` on a non-dict entry is caught by the
iteration's `except`, so the loop continues with `ready` already set); on
`"errored"` it marks the job errored and breaks; otherwise (including a
caught exception) it sleeps and re-polls.  Returns the job, the final
`ready` flag, and the issued calls. -/
def pollLoop (p : Provider) (j : Job) (ready : Bool) (elapsed k : Nat) :
    Job × Bool × List RemoteCall :=
  if elapsed < 300 then
    match p.getStatus j.asset_id k with
    | .exn _ =>
      let r := pollLoop p j ready (elapsed + 4) (k + 1)
      (r.1, r.2.1, .getStatusCall j.asset_id :: r.2.2)
    | .ok jdata =>
      let j1 := { j with mux_raw := jdata }
      match unwrapData jdata with
      | .obj fs =>
        if (jLookup fs "status").eqStr "ready" then
          let pidsv := jLookup fs "playback_ids"
          let pids := if pidsv.truthy then pidsv else JVal.arr []
          match pids with
          | .arr (p0 :: _) =>
            if j1.playback_id.truthy then (j1, true, [.getStatusCall j.asset_id])
            else
              match p0 with
              | .obj pfs =>
                ({ j1 with playback_id := jLookup pfs "id" }, true,
                 [.getStatusCall j.asset_id])
              | _ =>
                let r := pollLoop p j1 true (elapsed + 4) (k + 1)
                (r.1, r.2.1, .getStatusCall j.asset_id :: r.2.2)
          | _ => (j1, true, [.getStatusCall j.asset_id])
        else if (jLookup fs "status").eqStr "errored" then
          ({ j1 with status := "errored",
                     error := some (let ev := jLookup fs "errors"
                                    if ev.truthy then pyStr ev else "Mux errored") },
           ready, [.getStatusCall j.asset_id])
        else
          let r := pollLoop p j1 ready (elapsed + 4) (k + 1)
          (r.1, r.2.1, .getStatusCall j.asset_id :: r.2.2)
      | _ =>
        let r := pollLoop p j1 ready (elapsed + 4) (k + 1)
        (r.1, r.2.1, .getStatusCall j.asset_id :: r.2.2)
  else (j, ready, [])
termination_by 300 - elapsed
decreasing_by all_goals omega

/-- Asset-id extraction from the create-asset response, lines 171 and 175:
`asset = resp_json.get("data") if ... else resp_json` followed by
`job.asset_id = asset.get("id") if isinstance(asset, dict) else None`. -/
def assetIdFrom (respJson : JVal) : JVal :=
  match unwrapData respJson with
  | .obj fs => jLookup fs "id"
  | _ => .null

/-- The body of the per-job `for` loop of `process_pending`
(lines 152-257): mark the job `processing`, create the asset, record
`mux_raw`/`asset_id`, attempt playback-id creation, poll until ready /
errored / timeout; when no truthy asset id was extracted, mark the job
errored.  The outer `except` (line 253) converts an exception from the
create-asset call into `status = "errored"` with `error = str(exc)` (all
other fallible operations in the body sit under their own inner handlers).
Returns the updated row and the remote calls issued. -/
def processJob (p : Provider) (job0 : Job) : Job × List RemoteCall :=
  let j := { job0 with status := "processing" }
  match p.createAsset j.url j.title with
  | .exn msg =>
    ({ j with status := "errored", error := some msg },
     [.createAssetCall j.url j.title])
  | .ok respJson =>
    let j := { j with mux_raw := respJson, asset_id := assetIdFrom respJson }
    let pb := playbackStep p j
    let j := pb.1
    if j.asset_id.truthy then
      let r := pollLoop p j false 0 0
      let j3 :=
        if r.2.1 then { r.1 with status := "ready" }
        else if r.1.status ≠ "errored" then
          { r.1 with status := "processing",
                     error := some ((r.1.error.getD "") ++
                       " Polling timeout or still processing.") }
        else r.1
      (j3, .createAssetCall job0.url job0.title :: (pb.2 ++ r.2.2))
    else
      ({ j with status := "errored",
                error := some "Asset creation did not return asset_id." },
       .createAssetCall job0.url job0.title :: pb.2)

/-- `int(request.args.get("max", 1))`, line 148: a missing `max` query
parameter defaults to the integer `1`; a present one is a string fed to
`int()`, which raises `ValueError` on non-numeric input. -/
def parseMax (maxRaw : Option String) : CallResult Int :=
  match maxRaw with
  | none => .ok 1
  | some s =>
    match pyInt s with
    | some n => .ok n
    | none => .exn ("invalid literal for int() with base 10: " ++ s)

/-- The dispatcher's selection query, line 150:
`db.query(Job).filter(Job.status == "queued").order_by(Job.created_at.asc()).limit(max_jobs)`.
The SQL `LIMIT` is modelled as `List.take` of the nonnegative part of the
bound (a negative `LIMIT` is backend-specific and outside the store
contract). -/
def selectQueued (store : List Job) (m : Int) : List Job :=
  (List.insertionSort (fun a b => a.created_at ≤ b.created_at)
    (store.filter (fun j => j.status == "queued"))).take m.toNat

/-- Write the per-job results back into the table: each row whose primary
key has a processed result is replaced by it (rows are keyed by `id`). -/
def applyResults (store : List Job) (results : List Job) : List Job :=
  store.map (fun j =>
    match results.find? (fun r => r.id == j.id) with
    | some r => r
    | none => j)

/-- The `process_pending` endpoint (lines 140-259): parse `max` (raising on
a non-numeric value, before any job is touched), select up to `max_jobs`
queued jobs oldest-first, run the per-job processing body on each
sequentially, and return the list of attempted job ids (`processed`, which
is appended to before the per-job `try`) together with the updated table. -/
def process_pending (env : Nat → Provider) (maxRaw : Option String)
    (store : List Job) : CallResult (List Nat × List Job) :=
  match parseMax maxRaw with
  | .exn m => .exn m
  | .ok m =>
    let sel := selectQueued store m
    .ok (sel.map Job.id,
         applyResults store (sel.map (fun j => (processJob (env j.id) j).1)))

/-- The job table after one `process_pending` invocation (unchanged when the
invocation raises, since `int()` raises before any row is read). -/
def processStore (env : Nat → Provider) (maxRaw : Option String)
    (s : List Job) : List Job :=
  match process_pending env maxRaw s with
  | .ok r => r.2
  | .exn _ => s

/-- The ids reported by one `process_pending` invocation (empty when the
invocation raises). -/
def processedIds (env : Nat → Provider) (maxRaw : Option String)
    (s : List Job) : List Nat :=
  match process_pending env maxRaw s with
  | .ok r => r.1
  | .exn _ => []

/-- Response of the `enqueue_asset` endpoint. -/
inductive EnqResp where
  | missingParam : EnqResp
  | created (jobId : Nat) (status : String) : EnqResp

/-- A fresh `queued` row, as built by `Job(url=url, title=title,
status="queued")` plus the column defaults. -/
def mkJob (nid : Nat) (url title : JVal) (now : Nat) : Job :=
  { id := nid, url := url, title := title, status := "queued",
    asset_id := .null, playback_id := .null, mux_raw := .null,
    error := none, created_at := now }

/-- The `enqueue_asset` endpoint (lines 80-96).  `data` is the resolved
request mapping (`request.get_json(silent=True) or request.form or
request.values`): an object models the JSON-object / form cases; a truthy
non-object JSON body reaches `data.get` and raises `AttributeError`.
`url = data.get("url") or data.get("input")`; a falsy `url` yields the 400
`missing_parameter` response before any row is created; otherwise a fresh
`queued` row is inserted. -/
def enqueue_asset (data : JVal) (nid now : Nat) (store : List Job) :
    CallResult (EnqResp × List Job) :=
  match data with
  | .obj fs =>
    let urlv := if (jLookup fs "url").truthy then jLookup fs "url"
                else jLookup fs "input"
    if urlv.truthy then
      .ok (.created nid "queued", store ++ [mkJob nid urlv (jLookup fs "title") now])
    else
      .ok (.missingParam, store)
  | _ => .exn "AttributeError: object has no attribute get"

/-- The job table after one `enqueue_asset` invocation. -/
def enqueueStore (data : JVal) (nid now : Nat) (s : List Job) : List Job :=
  match enqueue_asset data nid now s with
  | .ok r => r.2
  | .exn _ => s

/-- One engine operation on the job table: an `enqueue_asset` call (with a
fresh autoincrement primary key) or a `process_pending` call. -/
inductive Step : List Job → List Job → Prop
  | enq (data : JVal) (nid now : Nat) (s : List Job)
      (hfresh : ∀ j ∈ s, j.id ≠ nid) :
      Step s (enqueueStore data nid now s)
  | proc (env : Nat → Provider) (maxRaw : Option String) (s : List Job) :
      Step s (processStore env maxRaw s)

/-- Job tables reachable from the empty table by engine operations. -/
def Reachable (s : List Job) : Prop :=
  Relation.ReflTransGen Step [] s

/-- The status edges of the claimed lifecycle graph:
`queued → processing → ready or errored`, with self-loops, no edge back to
`queued`, and `ready` / `errored` terminal. -/
def statusEdgeOK (a b : String) : Prop :=
  a = b ∨ (a = "queued" ∧ (b = "processing" ∨ b = "ready" ∨ b = "errored"))
    ∨ (a = "processing" ∧ (b = "ready" ∨ b = "errored"))

/-- Store invariant: a `queued` row still has its `playback_id` column at its
creation default (SQL NULL).  Rows are created with `playback_id = NULL` and
only the per-job processing body (which first moves the row off `queued`)
ever writes the column. -/
def PlaybackInv (s : List Job) : Prop :=
  ∀ j ∈ s, j.status = "queued" → j.playback_id = JVal.null

instance : IsTotal Job (fun a b => a.created_at ≤ b.created_at) :=
  ⟨fun a b => Nat.le_total a.created_at b.created_at⟩

instance : IsTrans Job (fun a b => a.created_at ≤ b.created_at) :=
  ⟨fun _ _ _ h1 h2 => Nat.le_trans h1 h2⟩

/-- A provider whose remote calls all raise a transport error. -/
def provDown : Provider :=
  { createAsset := fun _ _ => .exn "connection error",
    createPlayback := fun _ => .exn "connection error",
    getStatus := fun _ _ => .exn "connection error" }

/-- The one job enqueued by the end-to-end example of the spec. -/
def jobW : Job := mkJob 1 (JVal.str "https://example.com/v.mp4") JVal.null 0

/-- Classifier for status-poll calls in a remote-call trace. -/
def isStatusPoll : RemoteCall → Bool
  | .getStatusCall _ => true
  | _ => false

/-- A provider whose asset is created with id `ast_1` but whose status
polls report `pending` forever. -/
def provPending : Provider :=
  { createAsset := fun _ _ => .ok (JVal.obj [("data",
      JVal.obj [("id", JVal.str "ast_1"), ("status", JVal.str "preparing")])]),
    createPlayback := fun _ => .ok (JVal.obj [("data",
      JVal.obj [("id", JVal.str "pb_1")])]),
    getStatus := fun _ _ => .ok (JVal.obj [("data",
      JVal.obj [("id", JVal.str "ast_1"), ("status", JVal.str "pending")])]) }

/-- A provider whose create-asset call returns a well-formed rejection body
carrying no asset id. -/
def provReject : Provider :=
  { createAsset := fun _ _ => .ok (JVal.obj [("error",
      JVal.obj [("type", JVal.str "invalid_parameters"),
                ("messages", JVal.arr [JVal.str "Invalid input url"])])]),
    createPlayback := fun _ => .exn "unreachable",
    getStatus := fun _ _ => .exn "unreachable" }

/-- The `playback_ids` reference list carried inside a decoded create-asset
response (the list the spec says must be consulted before attempting
playback-reference creation). -/
def playbackIdsOf (respJson : JVal) : JVal :=
  match unwrapData respJson with
  | .obj fs => jLookup fs "playback_ids"
  | _ => .null

/-- A create-asset response that already carries a public playback
reference in its `playback_ids` list. -/
def respC2 : JVal :=
  JVal.obj [("data", JVal.obj [("id", JVal.str "ast_1"),
    ("status", JVal.str "preparing"),
    ("playback_ids", JVal.arr [JVal.obj [("policy", JVal.str "public"),
      ("id", JVal.str "pb_exist")]])])]

/-- A provider whose create-asset response is `respC2` (existing public
reference included). -/
def provC2 : Provider :=
  { createAsset := fun _ _ => .ok respC2,
    createPlayback := fun _ => .ok (JVal.obj [("data",
      JVal.obj [("id", JVal.str "pb_new")])]),
    getStatus := fun _ _ => .ok (JVal.obj [("data",
      JVal.obj [("status", JVal.str "pending")])]) }

/-- Create-asset response of the fully-successful provider. -/
def respReady : JVal :=
  JVal.obj [("data", JVal.obj [("id", JVal.str "ast_1"),
    ("status", JVal.str "preparing")])]

/-- Status-poll body reporting the asset ready with one playback id. -/
def readyBody : JVal :=
  JVal.obj [("data", JVal.obj [("status", JVal.str "ready"),
    ("playback_ids", JVal.arr [JVal.obj [("id", JVal.str "pb_1")]])])]

/-- A provider for which the whole pass succeeds: asset `ast_1` is created,
playback id `pb_1` is granted, and the first status poll reports ready. -/
def provReady : Provider :=
  { createAsset := fun _ _ => .ok respReady,
    createPlayback := fun _ => .ok (JVal.obj [("data",
      JVal.obj [("id", JVal.str "pb_1")])]),
    getStatus := fun _ _ => .ok readyBody }

/-- The row `jobW` after one fully-successful processing pass. -/
def jobWReady : Job :=
  { id := 1, url := JVal.str "https://example.com/v.mp4",
    title := JVal.null, status := "ready",
    asset_id := JVal.str "ast_1", playback_id := JVal.str "pb_1",
    mux_raw := readyBody, error := none, created_at := 0 }

/-- Second queued job for the batch-isolation scenario. -/
def c6jobB : Job := mkJob 2 (JVal.str "https://example.com/v2.mp4") JVal.null 1

/-- Environment for the batch-isolation scenario: job 1's provider raises
on create-asset, every other job's provider succeeds fully. -/
def c6env : Nat → Provider := fun i => if i == 1 then provDown else provReady

/-- Create-asset response of the always-pending provider. -/
def respPending : JVal :=
  JVal.obj [("data", JVal.obj [("id", JVal.str "ast_1"),
    ("status", JVal.str "preparing")])]

theorem pollLoop_core (fuel : Nat) : ∀ (e k : Nat) (p : Provider) (j : Job) (ready : Bool),
    300 - e ≤ fuel →
    (pollLoop p j ready e k).1.id = j.id ∧
    (pollLoop p j ready e k).1.url = j.url ∧
    (pollLoop p j ready e k).1.title = j.title ∧
    (pollLoop p j ready e k).1.created_at = j.created_at ∧
    (pollLoop p j ready e k).1.asset_id = j.asset_id ∧
    ((pollLoop p j ready e k).1.status = j.status ∨ (pollLoop p j ready e k).1.status = "errored") ∧
    (j.playback_id.truthy = true → (pollLoop p j ready e k).1.playback_id = j.playback_id) := by
  induction fuel with
  | zero =>
    intro e k p j ready h
    rw [pollLoop]
    have hne : ¬ e < 300 := by omega
    simp [if_neg hne]
  | succ n ih =>
    intro e k p j ready h
    by_cases he : e < 300
    · rw [pollLoop]
      simp only [if_pos he]
      repeat' split
      all_goals first
        | exact ih _ _ p _ _ (by omega)
        | exact ⟨rfl, rfl, rfl, rfl, rfl, Or.inl rfl, fun hpb => hpb⟩
        | exact ⟨rfl, rfl, rfl, rfl, rfl, Or.inl rfl, fun hpb => rfl⟩
        | exact ⟨rfl, rfl, rfl, rfl, rfl, Or.inr rfl, fun hpb => rfl⟩
        | exact ⟨rfl, rfl, rfl, rfl, rfl, Or.inl rfl, fun hpb => absurd hpb (by assumption)⟩
    · rw [pollLoop]
      simp [if_neg he]

theorem pollLoop_pending (fuel : Nat) :
    ∀ (e k : Nat) (p : Provider) (j : Job) (ready : Bool),
    300 - e ≤ fuel →
    (∀ n, ∃ body fs, p.getStatus j.asset_id n = .ok body ∧
        unwrapData body = .obj fs ∧ jLookup fs "status" = .str "pending") →
    (pollLoop p j ready e k).1.status = j.status ∧
    (pollLoop p j ready e k).1.error = j.error ∧
    (pollLoop p j ready e k).1.playback_id = j.playback_id ∧
    (pollLoop p j ready e k).1.asset_id = j.asset_id ∧
    (pollLoop p j ready e k).1.id = j.id ∧
    (pollLoop p j ready e k).2.1 = ready ∧
    (pollLoop p j ready e k).2.2 =
      List.replicate ((300 - e + 3) / 4) (RemoteCall.getStatusCall j.asset_id) := by
  induction fuel with
  | zero =>
    intro e k p j ready h hp
    have hne : ¬ e < 300 := by omega
    have h0 : (300 - e + 3) / 4 = 0 := by omega
    rw [pollLoop]
    simp [if_neg hne, h0]
  | succ n ih =>
    intro e k p j ready h hp
    by_cases he : e < 300
    · obtain ⟨body, fs, hg, hu, hst⟩ := hp k
      have harith : (300 - e + 3) / 4 = ((300 - (e + 4) + 3) / 4) + 1 := by omega
      have ihh := ih (e + 4) (k + 1) p { j with mux_raw := body } ready (by omega) hp
      rw [pollLoop]
      have hready : (JVal.str "pending").eqStr "ready" = false := by decide
      have herr : (JVal.str "pending").eqStr "errored" = false := by decide
      simp only [if_pos he, hg, hu, hst, hready, herr, Bool.false_eq_true, if_false]
      exact ⟨ihh.1, ihh.2.1, ihh.2.2.1, ihh.2.2.2.1, ihh.2.2.2.2.1, ihh.2.2.2.2.2.1,
             by rw [harith, List.replicate_succ]
                exact congrArg _ ihh.2.2.2.2.2.2⟩
    · have h0 : (300 - e + 3) / 4 = 0 := by omega
      rw [pollLoop]
      simp [if_neg he, h0]

theorem playbackStep_spec (p : Provider) (j : Job) :
    (playbackStep p j).1.id = j.id ∧
    (playbackStep p j).1.url = j.url ∧
    (playbackStep p j).1.title = j.title ∧
    (playbackStep p j).1.created_at = j.created_at ∧
    (playbackStep p j).1.asset_id = j.asset_id ∧
    (playbackStep p j).1.status = j.status ∧
    (playbackStep p j).1.error = j.error ∧
    ((playbackStep p j).2 = [] ∨
      (playbackStep p j).2 = [RemoteCall.createPlaybackCall j.asset_id]) := by
  unfold playbackStep
  by_cases ht : j.asset_id.truthy = true
  · simp only [if_pos ht]
    cases hc : p.createPlayback j.asset_id with
    | exn m => simp
    | ok pbJson =>
      cases hu : unwrapData pbJson with
      | obj fs =>
        by_cases hid : (jLookup fs "id").truthy = true
        · simp only [if_pos hid]
          cases hmr : (if j.mux_raw.truthy = true then j.mux_raw else JVal.obj []) with
          | obj mfs => simp [hu, hid]
          | null => simp [hu, hid]
          | str s => simp [hu, hid]
          | arr xs => simp [hu, hid]
        · simp [hu, hid]
      | null => simp [hu]
      | str s => simp [hu]
      | arr xs => simp [hu]
  · simp [ht]

theorem processJob_fixed (p : Provider) (j : Job) :
    (processJob p j).1.id = j.id ∧
    (processJob p j).1.url = j.url ∧
    (processJob p j).1.title = j.title ∧
    (processJob p j).1.created_at = j.created_at := by
  unfold processJob
  cases hc : p.createAsset j.url j.title with
  | exn m => simp [hc]
  | ok respJson =>
    have hpb := playbackStep_spec p { { j with status := "processing" } with
      mux_raw := respJson, asset_id := assetIdFrom respJson }
    have hpl := pollLoop_core 300 0 0 p (playbackStep p { { j with status := "processing" } with
      mux_raw := respJson, asset_id := assetIdFrom respJson }).1 false (by omega)
    simp only [hc]
    repeat' split
    all_goals simp_all

theorem processJob_status (p : Provider) (j : Job) :
    (processJob p j).1.status = "processing" ∨
    (processJob p j).1.status = "ready" ∨
    (processJob p j).1.status = "errored" := by
  unfold processJob
  cases hc : p.createAsset j.url j.title with
  | exn m => simp [hc]
  | ok respJson =>
    have hpb := playbackStep_spec p { { j with status := "processing" } with
      mux_raw := respJson, asset_id := assetIdFrom respJson }
    have hpl := pollLoop_core 300 0 0 p (playbackStep p { { j with status := "processing" } with
      mux_raw := respJson, asset_id := assetIdFrom respJson }).1 false (by omega)
    simp only [hc]
    repeat' split
    all_goals simp_all

theorem mem_selectQueued {store : List Job} {m : Int} {j : Job}
    (h : j ∈ selectQueued store m) : j ∈ store ∧ j.status = "queued" := by
  unfold selectQueued at h
  have h1 := (List.take_sublist _ _).mem h
  have h2 := (List.perm_insertionSort
    (fun (a b : Job) => a.created_at ≤ b.created_at) _).mem_iff.mp h1
  have h3 := List.mem_filter.mp h2
  exact ⟨h3.1, by simpa using h3.2⟩

theorem sorted_selectQueued (store : List Job) (m : Int) :
    List.Sorted (fun a b => a.created_at ≤ b.created_at) (selectQueued store m) :=
  (List.sorted_insertionSort _ _).sublist (List.take_sublist _ _)

theorem length_selectQueued (store : List Job) (m : Int) :
    (selectQueued store m).length =
      min m.toNat (store.filter fun j => j.status == "queued").length := by
  unfold selectQueued
  rw [List.length_take, (List.perm_insertionSort _ _).length_eq]

theorem applyResults_map_id (store results : List Job) :
    (applyResults store results).map Job.id = store.map Job.id := by
  unfold applyResults
  rw [List.map_map]
  apply List.map_congr_left
  intro j hj
  cases hf : results.find? (fun r => r.id == j.id) with
  | none => simp [hf]
  | some r =>
    have hr := List.find?_some hf
    simp only [beq_iff_eq] at hr
    simp [hf, hr]

theorem mem_applyResults {s results : List Job} {x : Job}
    (h : x ∈ applyResults s results) : x ∈ s ∨ x ∈ results := by
  unfold applyResults at h
  obtain ⟨j, hj, hx⟩ := List.mem_map.mp h
  cases hf : results.find? (fun r => r.id == j.id) with
  | none =>
    rw [hf] at hx
    exact Or.inl (by simpa [← hx] using hj)
  | some r =>
    rw [hf] at hx
    exact Or.inr (hx ▸ List.mem_of_find?_eq_some hf)

theorem enqueueStore_eq (data : JVal) (nid now : Nat) (s : List Job) :
    enqueueStore data nid now s = s ∨
    ∃ u t, enqueueStore data nid now s = s ++ [mkJob nid u t now] := by
  unfold enqueueStore enqueue_asset
  match data with
  | .null => exact Or.inl rfl
  | .str s0 => exact Or.inl rfl
  | .arr xs => exact Or.inl rfl
  | .obj fs =>
    by_cases hu : (if (jLookup fs "url").truthy = true then jLookup fs "url"
        else jLookup fs "input").truthy = true
    · exact Or.inr ⟨(if (jLookup fs "url").truthy = true then jLookup fs "url"
        else jLookup fs "input"), jLookup fs "title", by simp [hu]⟩
    · exact Or.inl (by simp [hu])

theorem processStore_ok (env : Nat → Provider) (maxRaw : Option String)
    (m : Int) (store : List Job) (hm : parseMax maxRaw = .ok m) :
    processStore env maxRaw store =
      applyResults store
        ((selectQueued store m).map (fun j => (processJob (env j.id) j).1)) := by
  unfold processStore process_pending
  rw [hm]

theorem processStore_parse_exn (env : Nat → Provider) (maxRaw : Option String)
    (m : String) (store : List Job) (hm : parseMax maxRaw = .exn m) :
    processStore env maxRaw store = store := by
  unfold processStore process_pending
  rw [hm]

theorem processStore_map_id (env : Nat → Provider) (maxRaw : Option String)
    (s : List Job) : (processStore env maxRaw s).map Job.id = s.map Job.id := by
  cases hpm : parseMax maxRaw with
  | exn m => rw [processStore_parse_exn env maxRaw m s hpm]
  | ok m => rw [processStore_ok env maxRaw m s hpm, applyResults_map_id]

theorem reachable_nodup {s : List Job} (h : Reachable s) :
    (s.map Job.id).Nodup := by
  unfold Reachable at h
  induction h with
  | refl => simp
  | @tail s0 s1 hsteps hstep ih =>
    cases hstep with
    | enq data nid now sx hfresh =>
      rcases enqueueStore_eq data nid now s0 with he | ⟨u, t, he⟩
      · rw [he]; exact ih
      · rw [he]
        simp only [List.map_append, List.map_cons, List.map_nil]
        rw [List.nodup_append]
        refine ⟨ih, List.nodup_singleton _, ?_⟩
        intro a ha hb
        simp only [List.mem_singleton] at hb
        subst hb
        obtain ⟨j, hj, hid⟩ := List.mem_map.mp ha
        exact hfresh j hj (by simpa [mkJob] using hid)
    | proc env maxRaw =>
      rw [processStore_map_id]
      exact ih

theorem reachable_playbackInv {s : List Job} (h : Reachable s) :
    PlaybackInv s := by
  unfold Reachable at h
  induction h with
  | refl => intro j hj; simp at hj
  | @tail s0 s1 hsteps hstep ih =>
    cases hstep with
    | enq data nid now sx hfresh =>
      rcases enqueueStore_eq data nid now s0 with he | ⟨u, t, he⟩
      · rw [he]; exact ih
      · rw [he]
        intro j hj hq
        rcases List.mem_append.mp hj with h1 | h2
        · exact ih j h1 hq
        · simp only [List.mem_singleton] at h2
          subst h2
          rfl
    | proc env maxRaw =>
      intro j hj hq
      cases hpm : parseMax maxRaw with
      | exn m =>
        rw [processStore_parse_exn env maxRaw m s0 hpm] at hj
        exact ih j hj hq
      | ok m =>
        rw [processStore_ok env maxRaw m s0 hpm] at hj
        rcases mem_applyResults hj with h1 | h2
        · exact ih j h1 hq
        · obtain ⟨jsel, hmem, hr⟩ := List.mem_map.mp h2
          rcases processJob_status (env jsel.id) jsel with hs | hs | hs <;>
            · rw [← hr] at hq
              rw [hs] at hq
              simp at hq

theorem applyResults_image (results : List Job) {s : List Job} {j : Job}
    (hj : j ∈ s) :
    (match results.find? (fun r => r.id == j.id) with
      | some r => r
      | none => j) ∈ applyResults s results := by
  unfold applyResults
  exact List.mem_map_of_mem _ hj

/-- C3: along any sequence of `enqueue_asset` / `process_pending`
operations, a job's status only moves along the edges
`queued → processing → ready or errored` (self-loops allowed): no operation
moves a status back to `queued`, and `ready` / `errored` rows are never
restatused. -/
theorem c3_status_transitions_monotone {s s2 : List Job}
    (hreach : Reachable s) (hstep : Step s s2) :
    ∀ j ∈ s, ∃ j2 ∈ s2, j2.id = j.id ∧ statusEdgeOK j.status j2.status := by
  intro j hj
  cases hstep with
  | enq data nid now sx hfresh =>
    rcases enqueueStore_eq data nid now s with he | ⟨u, t, he⟩
    · exact ⟨j, by rw [he]; exact hj, rfl, Or.inl rfl⟩
    · exact ⟨j, by rw [he]; exact List.mem_append_left _ hj, rfl, Or.inl rfl⟩
  | proc env maxRaw =>
    cases hpm : parseMax maxRaw with
    | exn m =>
      exact ⟨j, by rw [processStore_parse_exn env maxRaw m s hpm]; exact hj, rfl, Or.inl rfl⟩
    | ok m =>
      rw [processStore_ok env maxRaw m s hpm]
      have himg := applyResults_image
        ((selectQueued s m).map (fun j => (processJob (env j.id) j).1)) hj
      cases hf : ((selectQueued s m).map
          (fun j => (processJob (env j.id) j).1)).find? (fun r => r.id == j.id) with
      | none =>
        rw [hf] at himg
        exact ⟨j, himg, rfl, Or.inl rfl⟩
      | some r =>
        rw [hf] at himg
        have hrid : r.id = j.id := by
          have := List.find?_some hf
          simpa using this
        have hrmem := List.mem_of_find?_eq_some hf
        obtain ⟨jsel, hselmem, hr⟩ := List.mem_map.mp hrmem
        have hsel := mem_selectQueued hselmem
        have hselid : jsel.id = j.id := by
          rw [← hrid, ← hr]
          exact ((processJob_fixed (env jsel.id) jsel).1).symm
        have hjeq : jsel = j :=
          List.inj_on_of_nodup_map (reachable_nodup hreach) hsel.1 hj hselid
        refine ⟨r, himg, hrid, Or.inr (Or.inl ⟨by rw [← hjeq]; exact hsel.2, ?_⟩)⟩
        rw [← hr]
        exact processJob_status (env jsel.id) jsel

theorem enqueue_jobW :
    enqueueStore (JVal.obj [("url", JVal.str "https://example.com/v.mp4")]) 1 0 []
      = [jobW] := by rfl

theorem reachable_jobW : Reachable [jobW] :=
  Relation.ReflTransGen.single
    (enqueue_jobW ▸
      Step.enq (JVal.obj [("url", JVal.str "https://example.com/v.mp4")]) 1 0 []
        (by simp))

/-- Witness for C3: the concrete one-job store `[jobW]` (reachable by one
enqueue) stepped by one dispatch against an unavailable provider. -/
theorem c3_status_transitions_monotone_witness :
    ∃ j2 ∈ processStore (fun _ => provDown) none [jobW],
      j2.id = jobW.id ∧ statusEdgeOK jobW.status j2.status :=
  c3_status_transitions_monotone reachable_jobW
    (Step.proc (fun _ => provDown) none [jobW]) jobW (by simp)

theorem playbackStep_asset (p : Provider) (j : Job) :
    (playbackStep p j).1.asset_id = j.asset_id :=
  (playbackStep_spec p j).2.2.2.2.1

theorem playbackStep_status (p : Provider) (j : Job) :
    (playbackStep p j).1.status = j.status :=
  (playbackStep_spec p j).2.2.2.2.2.1

theorem playbackStep_error (p : Provider) (j : Job) :
    (playbackStep p j).1.error = j.error :=
  (playbackStep_spec p j).2.2.2.2.2.2.1

theorem playbackStep_calls (p : Provider) (j : Job)
    (h : j.asset_id.truthy = true) :
    (playbackStep p j).2 = [RemoteCall.createPlaybackCall j.asset_id] := by
  unfold playbackStep
  rw [if_pos h]
  cases hc : p.createPlayback j.asset_id with
  | exn m => rfl
  | ok pbJson =>
    cases hu : unwrapData pbJson with
    | obj fs =>
      by_cases hid : (jLookup fs "id").truthy = true
      · simp only [hu, if_pos hid]
        cases hmr : (if j.mux_raw.truthy = true then j.mux_raw else JVal.obj []) with
        | obj mfs => rfl
        | null => rfl
        | str s => rfl
        | arr xs => rfl
      · simp [hu, hid]
    | null => simp [hu]
    | str s => simp [hu]
    | arr xs => simp [hu]

theorem filter_isStatusPoll_replicate (n : Nat) (a : JVal) :
    (List.replicate n (RemoteCall.getStatusCall a)).filter isStatusPoll =
      List.replicate n (RemoteCall.getStatusCall a) := by
  induction n with
  | zero => rfl
  | succ k ih => simp [List.replicate_succ, List.filter_cons, isStatusPoll, ih]

theorem processJob_pending_spec (p : Provider) (j : Job) (respJson : JVal)
    (hc : p.createAsset j.url j.title = .ok respJson)
    (hid : (assetIdFrom respJson).truthy = true)
    (hp : ∀ n, ∃ body fs, p.getStatus (assetIdFrom respJson) n = .ok body ∧
        unwrapData body = JVal.obj fs ∧ jLookup fs "status" = JVal.str "pending") :
    (processJob p j).1.status = "processing" ∧
    (processJob p j).1.error =
      some ((j.error.getD "") ++ " Polling timeout or still processing.") ∧
    ((processJob p j).2.filter isStatusPoll).length = 300 / 4 := by
  simp only [processJob]
  rw [hc]
  have hpb := playbackStep_spec p
    { j with status := "processing", mux_raw := respJson, asset_id := assetIdFrom respJson }
  have hpoll := pollLoop_pending 300 0 0 p
    (playbackStep p
      { j with status := "processing", mux_raw := respJson,
               asset_id := (assetIdFrom respJson) }).1 false (by omega)
    (by rw [playbackStep_asset]; exact hp)
  obtain ⟨hbid, hburl, hbtitle, hbcat, hbass, hbstat, hberr, hbtr⟩ := hpb
  obtain ⟨hps, hpe, hpp, hpa, hpi, hpr, hptr⟩ := hpoll
  have hcond : (playbackStep p
      { j with status := "processing", mux_raw := respJson,
               asset_id := (assetIdFrom respJson) }).1.asset_id.truthy = true := by
    rw [hbass]
    exact hid
  simp only [hcond]
  have hcalls := playbackStep_calls p
    { j with status := "processing", mux_raw := respJson,
             asset_id := (assetIdFrom respJson) } (by exact hid)
  refine ⟨?_, ?_, ?_⟩
  · simp [hpr, hps, hbstat]
  · simp [hpr, hps, hbstat, hpe, hberr]
  · rw [hptr, hcalls]
    simp [List.filter_cons, List.filter_append, isStatusPoll,
      filter_isStatusPoll_replicate]

/-- C5: when the asset is created with a (truthy) id but every status poll
reports remote status `pending`, one processing pass leaves the job in
status `processing`, appends the timeout note to its error field, and
issues exactly `300 / 4 = 75` status polls (the polling budget divided by
the poll interval, each remote call and store write taken as instantaneous
relative to the 4-second sleep). -/
theorem c5_pending_timeout (p : Provider) (j : Job) (respJson : JVal)
    (hc : p.createAsset j.url j.title = .ok respJson)
    (hid : (assetIdFrom respJson).truthy = true)
    (hp : ∀ n, ∃ body fs, p.getStatus (assetIdFrom respJson) n = .ok body ∧
        unwrapData body = JVal.obj fs ∧ jLookup fs "status" = JVal.str "pending") :
    (processJob p j).1.status = "processing" ∧
    (processJob p j).1.error =
      some ((j.error.getD "") ++ " Polling timeout or still processing.") ∧
    ((processJob p j).2.filter isStatusPoll).length = 300 / 4 :=
  processJob_pending_spec p j respJson hc hid hp

/-- Witness for C5: the always-pending provider `provPending` against the
enqueued job `jobW`. -/
theorem c5_pending_timeout_witness :
    (processJob provPending jobW).1.status = "processing" ∧
    (processJob provPending jobW).1.error =
      some ((jobW.error.getD "") ++ " Polling timeout or still processing.") ∧
    ((processJob provPending jobW).2.filter isStatusPoll).length = 300 / 4 :=
  c5_pending_timeout provPending jobW
    (JVal.obj [("data",
      JVal.obj [("id", JVal.str "ast_1"), ("status", JVal.str "preparing")])])
    rfl (by decide)
    (fun n => ⟨JVal.obj [("data",
        JVal.obj [("id", JVal.str "ast_1"), ("status", JVal.str "pending")])],
      [("id", JVal.str "ast_1"), ("status", JVal.str "pending")], rfl, rfl, rfl⟩)

/-- C9: for every store and every parsed `max` bound, the dispatcher
selects exactly jobs with status `queued` (members of the store), at most
`max_jobs` of them, ordered by `created_at` ascending, and processes them
sequentially in that order, returning their ids in order together with the
store updated job-by-job. -/
theorem c9_dispatcher_selection (env : Nat → Provider) (maxRaw : Option String)
    (store : List Job) (m : Int) (hm : parseMax maxRaw = .ok m) :
    (∀ j ∈ selectQueued store m, j ∈ store ∧ j.status = "queued") ∧
    (selectQueued store m).length =
      min m.toNat (store.filter fun j => j.status == "queued").length ∧
    List.Sorted (fun a b => a.created_at ≤ b.created_at) (selectQueued store m) ∧
    process_pending env maxRaw store =
      .ok ((selectQueued store m).map Job.id,
        applyResults store
          ((selectQueued store m).map (fun j => (processJob (env j.id) j).1))) := by
  refine ⟨fun j hj => mem_selectQueued hj, length_selectQueued store m,
    sorted_selectQueued store m, ?_⟩
  unfold process_pending
  rw [hm]

/-- Witness for C9: the worker loop's `max=2` request on a one-job store. -/
theorem c9_dispatcher_selection_witness :
    (selectQueued [jobW] 2).length =
      min (Int.toNat 2) ([jobW].filter fun j => j.status == "queued").length ∧
    List.Sorted (fun a b => a.created_at ≤ b.created_at) (selectQueued [jobW] 2) ∧
    process_pending (fun _ => provDown) (some "2") [jobW] =
      .ok ((selectQueued [jobW] 2).map Job.id,
        applyResults [jobW]
          ((selectQueued [jobW] 2).map
            (fun j => (processJob ((fun _ => provDown) j.id) j).1))) :=
  (c9_dispatcher_selection (fun _ => provDown) (some "2") [jobW] 2 rfl).2

/-- C4 fails as stated: a non-numeric `max` query parameter makes
`process_pending` raise `ValueError` from `int()` on line 148 (before the
`try`), which propagates to the caller as an HTTP 500 instead of a normal
per-job-outcome response. -/
theorem c4_nonnumeric_max_counterexample :
    process_pending (fun _ => provDown) (some "abc") [] =
      .exn "invalid literal for int() with base 10: abc" := by rfl

/-- C4 (amended): whenever the `max` parameter is absent or parses as an
integer, `process_pending` propagates no exception: it returns the
attempted job ids normally, for every provider behaviour and store
contents.  A non-numeric `max` raises before any job is read. -/
theorem c4_no_exception_when_max_parses (env : Nat → Provider)
    (maxRaw : Option String) (store : List Job) (m : Int)
    (hm : parseMax maxRaw = .ok m) :
    process_pending env maxRaw store =
      .ok ((selectQueued store m).map Job.id,
        applyResults store
          ((selectQueued store m).map (fun j => (processJob (env j.id) j).1))) := by
  unfold process_pending
  rw [hm]

/-- Witness for the amended C4: a missing `max` parameter on the empty
store returns a normal (empty) result. -/
theorem c4_no_exception_when_max_parses_witness :
    process_pending (fun _ => provDown) none [] =
      .ok ((selectQueued [] 1).map Job.id,
        applyResults []
          ((selectQueued [] 1).map
            (fun j => (processJob ((fun _ => provDown) j.id) j).1))) :=
  c4_no_exception_when_max_parses (fun _ => provDown) none [] 1 rfl

/-- C10 fails as stated: a truthy non-object JSON body (here a JSON array)
contains neither a `url` nor an `input` field, yet `enqueue_asset` reaches
`data.get` and raises `AttributeError` (an HTTP 500), not the 400
`missing_parameter` response. -/
theorem c10_nonobject_body_counterexample :
    enqueue_asset (JVal.arr [JVal.str "x"]) 1 0 [] =
      .exn "AttributeError: object has no attribute get" := by rfl

/-- C10 (amended): for a request whose resolved body mapping is an
object/form mapping containing neither a `url` nor an `input` key,
`enqueue_asset` returns the 400 `missing_parameter` response and leaves the
job store unchanged (no row is created). -/
theorem c10_missing_url_rejected (fs : List (String × JVal)) (nid now : Nat)
    (store : List Job) (hurl : fs.lookup "url" = none)
    (hinput : fs.lookup "input" = none) :
    enqueue_asset (JVal.obj fs) nid now store =
      .ok (EnqResp.missingParam, store) := by
  unfold enqueue_asset
  simp [jLookup, hurl, hinput, JVal.truthy]

/-- Witness for the amended C10: a body carrying only a title. -/
theorem c10_missing_url_rejected_witness :
    enqueue_asset (JVal.obj [("title", JVal.str "demo")]) 1 0 [] =
      .ok (EnqResp.missingParam, []) :=
  c10_missing_url_rejected [("title", JVal.str "demo")] 1 0 [] rfl rfl

/-- C7: when the create-asset call returns a decoded response from which no
truthy asset id can be extracted, the pass ends the job `errored`, with the
asset id column still non-truthy (unset), a non-empty fixed diagnostic in
`error`, and such a row is never selected by any later dispatch (selection
takes only `queued` rows), so it never reaches `ready`. -/
theorem c7_rejected_creation_errored (p : Provider) (j : Job) (respJson : JVal)
    (hc : p.createAsset j.url j.title = .ok respJson)
    (hid : (assetIdFrom respJson).truthy = false) :
    (processJob p j).1.status = "errored" ∧
    (processJob p j).1.asset_id = assetIdFrom respJson ∧
    (processJob p j).1.asset_id.truthy = false ∧
    (processJob p j).1.error = some "Asset creation did not return asset_id." ∧
    ∀ (m : Int) (store : List Job), (processJob p j).1 ∉ selectQueued store m := by
  simp only [processJob]
  rw [hc]
  simp only []
  have hpb : playbackStep p
      { j with status := "processing", mux_raw := respJson,
               asset_id := (assetIdFrom respJson) } =
      ({ j with status := "processing", mux_raw := respJson,
                asset_id := (assetIdFrom respJson) }, []) := by
    unfold playbackStep
    rw [if_neg]
    simp [hid]
  rw [hpb]
  simp only [hid]
  refine ⟨by simp, by simp, by simp [hid], by simp, ?_⟩
  intro m store hmem
  have := (mem_selectQueued hmem).2
  simp at this

/-- Witness for C7: the rejecting provider `provReject` against `jobW`
(the first four conjuncts of the theorem instantiated there). -/
theorem c7_rejected_creation_errored_witness :
    (processJob provReject jobW).1.status = "errored" ∧
    (processJob provReject jobW).1.asset_id.truthy = false ∧
    (processJob provReject jobW).1.error =
      some "Asset creation did not return asset_id." := by
  have h := c7_rejected_creation_errored provReject jobW
    (JVal.obj [("error",
      JVal.obj [("type", JVal.str "invalid_parameters"),
                ("messages", JVal.arr [JVal.str "Invalid input url"])])])
    rfl (by decide)
  exact ⟨h.1, h.2.2.1, h.2.2.2.1⟩

theorem processJob_calls_playback (p : Provider) (j : Job) (respJson : JVal)
    (hc : p.createAsset j.url j.title = .ok respJson)
    (hid : (assetIdFrom respJson).truthy = true) :
    RemoteCall.createPlaybackCall (assetIdFrom respJson) ∈ (processJob p j).2 := by
  simp only [processJob]
  rw [hc]
  simp only []
  have hcond : (playbackStep p
      { j with status := "processing", mux_raw := respJson,
               asset_id := (assetIdFrom respJson) }).1.asset_id.truthy = true := by
    rw [playbackStep_asset]
    exact hid
  have hcalls := playbackStep_calls p
    { j with status := "processing", mux_raw := respJson,
             asset_id := (assetIdFrom respJson) } (by exact hid)
  simp only [hcond]
  simp [hcalls]

/-- C2 fails as stated: the create-asset response `respC2` already carries
a public playback reference in its `playback_ids` list, yet the processing
pass still issues the create-playback-reference call — lines 179-186 guard
the POST only on `job.asset_id`, never consulting the response's reference
list. -/
theorem c2_existing_reference_counterexample :
    (playbackIdsOf respC2).truthy = true ∧
    RemoteCall.createPlaybackCall (assetIdFrom respC2) ∈
      (processJob provC2 jobW).2 :=
  ⟨rfl, processJob_calls_playback provC2 jobW respC2 rfl (by decide)⟩

/-- C2 (amended): whenever the create-asset response yields a truthy asset
id, the processing pass always attempts the create-playback-reference call;
no existing-reference check against the response's `playback_ids` list is
performed before the call. -/
theorem c2_no_existing_reference_check (p : Provider) (j : Job)
    (respJson : JVal) (hc : p.createAsset j.url j.title = .ok respJson)
    (hid : (assetIdFrom respJson).truthy = true) :
    RemoteCall.createPlaybackCall (assetIdFrom respJson) ∈ (processJob p j).2 :=
  processJob_calls_playback p j respJson hc hid

/-- Witness for the amended C2: the always-pending provider issues the
playback call for its created asset. -/
theorem c2_no_existing_reference_check_witness :
    RemoteCall.createPlaybackCall (assetIdFrom (JVal.obj [("data",
      JVal.obj [("id", JVal.str "ast_1"), ("status", JVal.str "preparing")])])) ∈
      (processJob provPending jobW).2 :=
  c2_no_existing_reference_check provPending jobW
    (JVal.obj [("data",
      JVal.obj [("id", JVal.str "ast_1"), ("status", JVal.str "preparing")])])
    rfl (by decide)

theorem pollLoop_ready_first (p : Provider) (j : Job) (ready : Bool) (k : Nat)
    (body : JVal) (fs : List (String × JVal))
    (hg : p.getStatus j.asset_id k = .ok body)
    (hu : unwrapData body = .obj fs)
    (hst : jLookup fs "status" = .str "ready")
    (hpb : j.playback_id.truthy = true) :
    pollLoop p j ready 0 k =
      ({ j with mux_raw := body }, true,
       [RemoteCall.getStatusCall j.asset_id]) := by
  rw [pollLoop]
  rw [if_pos (by omega)]
  rw [hg]
  simp only [hu, hst]
  have hr : (JVal.str "ready").eqStr "ready" = true := by decide
  simp only [hr, if_true]
  split
  · simp [hpb]
  · rfl

theorem processJob_provReady :
    (processJob provReady jobW).1 = jobWReady := by
  have hpoll := pollLoop_ready_first provReady
    (playbackStep provReady
      { jobW with status := "processing", mux_raw := respReady,
                  asset_id := assetIdFrom respReady }).1 false 0
    readyBody
    [("status", JVal.str "ready"),
     ("playback_ids", JVal.arr [JVal.obj [("id", JVal.str "pb_1")]])]
    rfl rfl rfl rfl
  simp only [processJob]
  rw [show provReady.createAsset jobW.url jobW.title = .ok respReady from rfl]
  simp only []
  rw [hpoll]
  rfl

theorem provReady_pass :
    processStore (fun _ => provReady) none [jobW] = [jobWReady] := by
  rw [processStore_ok (fun _ => provReady) none 1 [jobW] rfl]
  rw [show selectQueued [jobW] 1 = [jobW] from rfl]
  simp only [List.map_cons, List.map_nil]
  rw [processJob_provReady]
  rfl

theorem reachable_jobWReady : Reachable [jobWReady] := by
  have h2 : Step [jobW] [jobWReady] := by
    have h := Step.proc (fun _ => provReady) none [jobW]
    rwa [provReady_pass] at h
  exact Relation.ReflTransGen.tail reachable_jobW h2

/-- C8: a non-empty (truthy) playback reference is never overwritten:
(a) over reachable stores, every engine operation preserves the playback
reference of each job that already carries a truthy one (first value wins);
(b) in particular the polling loop only assigns a playback id from a status
response when the field is still unset — a job entering the loop with a
truthy reference leaves it with the same reference. -/
theorem c8_playback_first_value_wins :
    (∀ s s2, Reachable s → Step s s2 → ∀ j ∈ s, j.playback_id.truthy = true →
      ∃ j2 ∈ s2, j2.id = j.id ∧ j2.playback_id = j.playback_id) ∧
    (∀ (p : Provider) (j : Job) (ready : Bool) (e k : Nat),
      j.playback_id.truthy = true →
      (pollLoop p j ready e k).1.playback_id = j.playback_id) := by
  constructor
  · intro s s2 hreach hstep j hj htr
    cases hstep with
    | enq data nid now sx hfresh =>
      rcases enqueueStore_eq data nid now s with he | ⟨u, t, he⟩
      · exact ⟨j, by rw [he]; exact hj, rfl, rfl⟩
      · exact ⟨j, by rw [he]; exact List.mem_append_left _ hj, rfl, rfl⟩
    | proc env maxRaw =>
      cases hpm : parseMax maxRaw with
      | exn m =>
        exact ⟨j, by rw [processStore_parse_exn env maxRaw m s hpm]; exact hj,
               rfl, rfl⟩
      | ok m =>
        rw [processStore_ok env maxRaw m s hpm]
        have himg := applyResults_image
          ((selectQueued s m).map (fun r => (processJob (env r.id) r).1)) hj
        cases hf : ((selectQueued s m).map
            (fun r => (processJob (env r.id) r).1)).find? (fun r => r.id == j.id) with
        | none =>
          rw [hf] at himg
          exact ⟨j, himg, rfl, rfl⟩
        | some r =>
          exfalso
          have hrid : r.id = j.id := by
            have := List.find?_some hf
            simpa using this
          obtain ⟨jsel, hselmem, hr⟩ := List.mem_map.mp (List.mem_of_find?_eq_some hf)
          have hsel := mem_selectQueued hselmem
          have hselid : jsel.id = j.id := by
            rw [← hrid, ← hr]
            exact ((processJob_fixed (env jsel.id) jsel).1).symm
          have hjeq : jsel = j :=
            List.inj_on_of_nodup_map (reachable_nodup hreach) hsel.1 hj hselid
          have hq : j.status = "queued" := by rw [← hjeq]; exact hsel.2
          have hnull := reachable_playbackInv hreach j hj hq
          rw [hnull] at htr
          simp [JVal.truthy] at htr
  · intro p j ready e k htr
    exact (pollLoop_core 300 e k p j ready (by omega)).2.2.2.2.2.2 htr

/-- Witness for C8: the reachable store holding the fully-processed job
(whose playback reference `pb_1` is set), stepped by a further dispatch,
and the polling loop run directly on that job. -/
theorem c8_playback_first_value_wins_witness :
    (∃ j2 ∈ processStore (fun _ => provDown) none [jobWReady],
      j2.id = jobWReady.id ∧ j2.playback_id = jobWReady.playback_id) ∧
    (pollLoop provPending jobWReady false 0 0).1.playback_id =
      jobWReady.playback_id :=
  ⟨c8_playback_first_value_wins.1 [jobWReady] _ reachable_jobWReady
      (Step.proc (fun _ => provDown) none [jobWReady]) jobWReady
      (by simp) (by decide),
   c8_playback_first_value_wins.2 provPending jobWReady false 0 0 (by decide)⟩

/-- C6: an exception raised by one selected job's create-asset call does
not abort the batch: the dispatcher still returns normally with all
attempted ids in order (the failed job's id included), the failed job is
recorded `errored` with `str(exc)` as its error detail, and every other
selected job's processed result still enters the written-back results. -/
theorem c6_batch_isolation (env : Nat → Provider) (maxRaw : Option String)
    (store : List Job) (m : Int) (hm : parseMax maxRaw = .ok m)
    (jf : Job) (hjf : jf ∈ selectQueued store m) (msg : String)
    (hexn : (env jf.id).createAsset jf.url jf.title = .exn msg) :
    process_pending env maxRaw store =
      .ok ((selectQueued store m).map Job.id,
        applyResults store
          ((selectQueued store m).map (fun j => (processJob (env j.id) j).1))) ∧
    jf.id ∈ (selectQueued store m).map Job.id ∧
    (processJob (env jf.id) jf).1 =
      { jf with status := "errored", error := some msg } ∧
    ∀ jo ∈ selectQueued store m,
      (processJob (env jo.id) jo).1 ∈
        (selectQueued store m).map (fun j => (processJob (env j.id) j).1) := by
  refine ⟨?_, List.mem_map_of_mem Job.id hjf, ?_,
    fun jo hjo => List.mem_map_of_mem _ hjo⟩
  · unfold process_pending
    rw [hm]
  · simp only [processJob]
    rw [hexn]

/-- Witness for C6: the spec's batch-isolation test — two queued jobs, the
first one's create-asset call throws, the second one's provider succeeds
fully; both ids are attempted and the first ends errored. -/
theorem c6_batch_isolation_witness :
    process_pending c6env (some "2") [jobW, c6jobB] =
      .ok ((selectQueued [jobW, c6jobB] 2).map Job.id,
        applyResults [jobW, c6jobB]
          ((selectQueued [jobW, c6jobB] 2).map
            (fun j => (processJob (c6env j.id) j).1))) ∧
    jobW.id ∈ (selectQueued [jobW, c6jobB] 2).map Job.id ∧
    (processJob (c6env jobW.id) jobW).1 =
      { jobW with status := "errored", error := some "connection error" } := by
  have h := c6_batch_isolation c6env (some "2") [jobW, c6jobB] 2 rfl jobW
    (by rw [show selectQueued [jobW, c6jobB] 2 = [jobW, c6jobB] from rfl]; simp)
    "connection error" rfl
  exact ⟨h.1, h.2.1, h.2.2.1⟩

/-- C1 fails as stated: a pass against an always-pending provider leaves
the single job in status `processing` (with the timeout note), and a later
`process_pending` invocation attempts no job at all and leaves the store
unchanged — the selection query filters on `status == "queued"` only, so a
timed-out job is never resumed. -/
theorem c1_timeout_job_stuck_counterexample :
    ((processStore (fun _ => provPending) none [jobW]).map Job.status =
      ["processing"]) ∧
    processedIds (fun _ => provPending) none
      (processStore (fun _ => provPending) none [jobW]) = [] ∧
    processStore (fun _ => provPending) none
      (processStore (fun _ => provPending) none [jobW]) =
      processStore (fun _ => provPending) none [jobW] := by
  have hspec := processJob_pending_spec provPending jobW respPending rfl (by decide)
    (fun n => ⟨JVal.obj [("data",
        JVal.obj [("id", JVal.str "ast_1"), ("status", JVal.str "pending")])],
      [("id", JVal.str "ast_1"), ("status", JVal.str "pending")], rfl, rfl, rfl⟩)
  have hstat : (processJob provPending jobW).1.status = "processing" := hspec.1
  have hid1 : (processJob provPending jobW).1.id = 1 :=
    (processJob_fixed provPending jobW).1
  have hs1 : processStore (fun _ => provPending) none [jobW] =
      [(processJob provPending jobW).1] := by
    rw [processStore_ok (fun _ => provPending) none 1 [jobW] rfl]
    rw [show selectQueued [jobW] 1 = [jobW] from rfl]
    simp only [List.map_cons, List.map_nil]
    unfold applyResults
    have hjid : jobW.id = 1 := rfl
    simp [List.find?, hjid, hid1]
  have hsel2 : selectQueued [(processJob provPending jobW).1] 1 = [] := by
    unfold selectQueued
    simp [List.filter, hstat]
  refine ⟨?_, ?_, ?_⟩
  · rw [hs1]
    simp [hstat]
  · rw [hs1]
    unfold processedIds process_pending
    rw [show parseMax none = .ok 1 from rfl]
    simp only [hsel2]
    rfl
  · rw [hs1]
    rw [processStore_ok (fun _ => provPending) none 1
      [(processJob provPending jobW).1] rfl]
    rw [hsel2]
    simp [applyResults]

/-- C1 (amended): a job left in `processing` by a polling timeout is never
selected by any later dispatch: every id the Batch Dispatcher attempts
belongs to a job whose status was `queued` in the store it read. -/
theorem c1_timeout_job_never_reselected (env : Nat → Provider)
    (maxRaw : Option String) (store : List Job) (i : Nat)
    (hi : i ∈ processedIds env maxRaw store) :
    ∃ j ∈ store, j.id = i ∧ j.status = "queued" := by
  unfold processedIds process_pending at hi
  cases hpm : parseMax maxRaw with
  | exn m =>
    rw [hpm] at hi
    simp at hi
  | ok m =>
    rw [hpm] at hi
    simp only [] at hi
    obtain ⟨j, hj, hid⟩ := List.mem_map.mp hi
    have hm2 := mem_selectQueued hj
    exact ⟨j, hm2.1, hid, hm2.2⟩

/-- Witness for the amended C1: the one attempted id of a dispatch over the
one-job store belongs to the queued job. -/
theorem c1_timeout_job_never_reselected_witness :
    ∃ j ∈ [jobW], j.id = 1 ∧ j.status = "queued" :=
  c1_timeout_job_never_reselected (fun _ => provDown) none [jobW] 1 (by decide)
